import Mathlib

/-!
Verification development for the `oura` command-line client (`main.go`).

The Go source is shallowly embedded: pure control flow becomes Lean
functions, the token file becomes explicit state passing, HTTP round
trips and JSON decoding of server responses become oracle parameters
(functions supplied to the model), and `time.Time` values are modelled
as integer Unix-nanosecond timestamps (the resolution of `time.Now()`).
-/

namespace Oura

/-- Brace characters, named so they can be used in definitions and
pattern positions. -/
def lbrace : Char := Char.ofNat 123

def rbrace : Char := Char.ofNat 125

/-! ## Token data model (`StoredToken`, `TokenResponse`, main.go lines 40-51) -/

/-- `StoredToken` from main.go lines 47-51.  `expiresAt` models the
`time.Time` field as a Unix-nanosecond timestamp. -/
structure StoredToken where
  accessToken : String
  refreshToken : String
  expiresAt : Int
deriving DecidableEq, Repr

/-- `TokenResponse` from main.go lines 40-45. -/
structure TokenResponse where
  accessToken : String
  refreshToken : String
  expiresIn : Int
  tokenType : String
deriving DecidableEq, Repr

/-- An HTTP response as seen by the Go client: status code and body. -/
structure HttpResponse where
  statusCode : Int
  body : String
deriving DecidableEq, Repr

/-- `5 * time.Minute` in nanoseconds (Go `time.Duration` unit). -/
def fiveMinutesNs : Int := 300000000000

/-- `time.Duration(expiresIn) * time.Second` in nanoseconds. -/
def nsPerSecond : Int := 1000000000

/-- `refreshToken` from main.go lines 174-207.  The network POST and the
JSON decode of the response body are oracles (`post`, `decode`); `now`
is the value of `time.Now()` at line 200.  Returns the Go result
(`*StoredToken, error` as `Except`) together with the list of
`saveToken` writes performed, in order (the token file is durable
state; `os.WriteFile` is modelled as an atomic successful write). -/
def refreshToken (refresh : String) (post : String → Except String HttpResponse)
    (decode : String → Except String TokenResponse) (now : Int) :
    Except String StoredToken × List StoredToken :=
  match post refresh with
  | .error e => (.error e, [])
  | .ok resp =>
    if resp.statusCode ≠ 200 then
      (.error ("token refresh failed: " ++ resp.body), [])
    else
      match decode resp.body with
      | .error e => (.error e, [])
      | .ok tr =>
        let stored : StoredToken :=
          ⟨tr.accessToken, tr.refreshToken, now + tr.expiresIn * nsPerSecond⟩
        (.ok stored, [stored])

/-- `getValidToken` from main.go lines 157-172.  `file` is the result of
`loadToken()` (`none` models a read/parse failure, i.e. not
authenticated); `now` is `time.Now()` at line 163.  The third component
records whether `refreshToken` was invoked. -/
def getValidToken (file : Option StoredToken) (now : Int)
    (post : String → Except String HttpResponse)
    (decode : String → Except String TokenResponse) :
    Except String String × List StoredToken × Bool :=
  match file with
  | none => (.error "not authenticated - run 'oura auth' first", [], false)
  | some token =>
    if now + fiveMinutesNs > token.expiresAt then
      match refreshToken token.refreshToken post decode now with
      | (.error e, ws) =>
        (.error ("token refresh failed - run 'oura auth' again: " ++ e), ws, true)
      | (.ok newToken, ws) => (.ok newToken.accessToken, ws, true)
    else
      (.ok token.accessToken, [], false)

/-! ## OAuth flow (`doAuth`, main.go lines 209-268) -/

/-- A value sent on one of the two buffered channels of `doAuth`:
`codeChan <- code` or `errChan <- err`. -/
inductive Signal where
  | codeSig : String → Signal
  | errSig : String → Signal
deriving DecidableEq, Repr

/-- The event the `select` at main.go lines 256-268 wakes up on. -/
inductive SelectEvent where
  | codeRecv : String → SelectEvent
  | errRecv : String → SelectEvent
  | timeout : SelectEvent
deriving DecidableEq, Repr

/-- Receiving a channel signal in the `select`. -/
def signalEvent : Signal → SelectEvent
  | .codeSig c => .codeRecv c
  | .errSig m => .errRecv m

/-- What the `select` branch does: whether `server.Close()` ran, the
line written to stderr (if any), and the `os.Exit` code (`none` means
the flow continues into `exchangeCode`). -/
structure SelectResult where
  serverClosed : Bool
  stderrLine : Option String
  exitCode : Option Nat
deriving DecidableEq, Repr

/-- The three branches of the `select` at main.go lines 256-268. -/
def doAuthSelect : SelectEvent → SelectResult
  | .codeRecv _ => ⟨true, none, none⟩
  | .errRecv m => ⟨true, some ("Auth error: " ++ m), some 1⟩
  | .timeout => ⟨true, some "Auth timeout", some 1⟩

/-- `2 * time.Minute` in nanoseconds: the `time.After` window at
main.go line 264. -/
def authTimeoutNs : Int := 120000000000

/-- Which event the `select` receives: the first channel signal (sent at
absolute time `t`) if it arrives strictly before the `time.After`
deadline, otherwise the timeout.  `start` is when the select begins
waiting (entry into the awaiting-callback state). -/
def firstEvent (sig : Option (Int × Signal)) (start : Int) : SelectEvent :=
  match sig with
  | none => .timeout
  | some (t, s) => if t - start < authTimeoutNs then signalEvent s else .timeout

/-- The query parameters of an OAuth callback request (`state`, `code`),
main.go lines 227-233. -/
structure CallbackRequest where
  state : String
  code : String
deriving DecidableEq, Repr

/-- What the callback handler does with one request: the HTTP status
written to the browser and the channel signal it sends (if any). -/
structure CallbackResponse where
  httpStatus : Nat
  signal : Option Signal
deriving DecidableEq, Repr

/-- The `/callback` handler registered at main.go lines 226-243.
`genState` is the `state` value generated at line 210. -/
def callbackHandler (genState : String) (r : CallbackRequest) : CallbackResponse :=
  if r.state ≠ genState then
    ⟨400, some (.errSig "state mismatch")⟩
  else if r.code = "" then
    ⟨400, some (.errSig "no code in callback")⟩
  else
    ⟨200, some (.codeSig r.code)⟩

/-! ## CSRF state generation (main.go line 210) -/

/-- Decimal digit character for `d < 10`. -/
def digitChar (d : Nat) : Char := Char.ofNat (48 + d)

/-- Fuel-bounded decimal rendering of a natural number, most
significant digit first; empty for `n = 0`. -/
def natReprAux : Nat → Nat → List Char
  | 0, _ => []
  | fuel + 1, n =>
    if n = 0 then [] else natReprAux fuel (n / 10) ++ [digitChar (n % 10)]

/-- Decimal rendering of a natural number (model of Go `%d` on a
non-negative value). -/
def natRepr (n : Nat) : List Char :=
  if n = 0 then ['0'] else natReprAux (n + 1) n

/-- Decimal rendering of an integer (model of Go `fmt.Sprintf("%d", i)`
for an `int64`). -/
def intRepr (i : Int) : List Char :=
  if i < 0 then '-' :: natRepr i.natAbs else natRepr i.natAbs

/-- `fmt.Sprintf("%d", i)` as a `String`. -/
def sprintfDec (i : Int) : String := ⟨intRepr i⟩

/-- The `state` value of `doAuth`, main.go line 210:
`fmt.Sprintf("%d", time.Now().UnixNano())`.  Its only input is the
wall-clock reading, passed here explicitly. -/
def doAuthState (nowUnixNano : Int) : String := sprintfDec nowUnixNano

/-! ## API client (`apiGet`, main.go lines 327-360) -/

/-- `apiGet` from main.go lines 327-360.  `tokenResult` is the outcome
of `getValidToken` and `resp` the HTTP round trip for this endpoint
(an oracle).  A non-200 status yields the `API error %d: %s` error. -/
def apiGet (tokenResult : Except String String)
    (resp : Except String HttpResponse) : Except String String :=
  match tokenResult with
  | .error e => .error e
  | .ok _ =>
    match resp with
    | .error e => .error e
    | .ok r =>
      if r.statusCode ≠ 200 then
        .error ("API error " ++ sprintfDec r.statusCode ++ ": " ++ r.body)
      else
        .ok r.body

/-! ## Data records (main.go lines 362-516; only the fields the
modelled control flow consults are carried). -/

/-- `SleepRecord` (main.go lines 368-386); the formatting-only fields
are omitted. -/
structure SleepRecord where
  day : String
  type : String
  totalSleepDuration : Int
deriving DecidableEq, Repr

/-- `DailySleepRecord` (main.go lines 392-404); contributors omitted. -/
structure DailySleepRecord where
  day : String
  score : Int
deriving DecidableEq, Repr

/-- `ReadinessRecord` (main.go lines 410-426); detail fields omitted. -/
structure ReadinessRecord where
  day : String
  score : Int
deriving DecidableEq, Repr

/-- `ActivityRecord` (main.go lines 432-445); detail fields omitted. -/
structure ActivityRecord where
  day : String
  score : Int
deriving DecidableEq, Repr

/-- `HeartRateRecord` (main.go lines 451-455). -/
structure HeartRateRecord where
  timestamp : String
  bpm : Int
  source : String
deriving DecidableEq, Repr

/-- `StressRecord` (main.go lines 461-466); detail fields omitted. -/
structure StressRecord where
  day : String
  stressHigh : Int
  recoveryHigh : Int
deriving DecidableEq, Repr

/-- `SpO2Record` (main.go lines 472-478); detail fields omitted. -/
structure SpO2Record where
  day : String
deriving DecidableEq, Repr

/-- `ResilienceRecord` (main.go lines 484-491); detail fields omitted. -/
structure ResilienceRecord where
  day : String
  level : String
deriving DecidableEq, Repr

/-- `VO2MaxRecord` (main.go lines 497-500); detail fields omitted. -/
structure VO2MaxRecord where
  day : String
deriving DecidableEq, Repr

/-- `WorkoutRecord` (main.go lines 506-516); detail fields omitted. -/
structure WorkoutRecord where
  day : String
  activity : String
deriving DecidableEq, Repr

/-! ## Fetch commands (main.go lines 520-918).

Each fetch function is modelled on its decision structure: the API call
results arrive as oracles already decoded into record lists (`.error e`
is an `apiGet` failure, `.ok l` the decoded `data` array of a 200
response), and the outcome records what the command does: print an
error and `os.Exit(1)`, print the no-data line and return (so the
process later exits 0), or print the full report (exit 0). -/

/-- Outcome of one fetch command. -/
inductive FetchOutcome where
  | errorExit : String → FetchOutcome
  | noData : String → FetchOutcome
  | printed : FetchOutcome
deriving DecidableEq, Repr

/-- The process exit status produced by a fetch outcome: `os.Exit(1)`
on the error path, a normal return (exit 0) otherwise. -/
def FetchOutcome.exitStatus : FetchOutcome → Nat
  | .errorExit _ => 1
  | .noData _ => 0
  | .printed => 0

/-- `fetchSleep` (main.go lines 520-617): the daily-sleep call's
failure is tolerated (only used for the score); the sleep call's
failure is fatal; records are filtered to the requested date; if
neither source has a record for the date, the no-data line is printed
and the function returns. -/
def fetchSleep (date : String)
    (daily : Except String (List DailySleepRecord))
    (sleep : Except String (List SleepRecord)) : FetchOutcome :=
  let dailySleep : Option DailySleepRecord :=
    match daily with
    | .error _ => none
    | .ok ds => (ds.filter (fun d => d.day = date)).head?
  match sleep with
  | .error e => .errorExit ("Error: " ++ e)
  | .ok recs =>
    let sleepRecords := recs.filter (fun s => s.day = date)
    if sleepRecords.isEmpty ∧ dailySleep.isNone then
      .noData ("No sleep data for " ++ date)
    else
      .printed

/-- `fetchReadiness` (main.go lines 619-673). -/
def fetchReadiness (date : String)
    (api : Except String (List ReadinessRecord)) : FetchOutcome :=
  match api with
  | .error e => .errorExit ("Error: " ++ e)
  | .ok recs =>
    match (recs.filter (fun r => r.day = date)).head? with
    | none => .noData ("No readiness data for " ++ date)
    | some _ => .printed

/-- `fetchActivity` (main.go lines 675-721). -/
def fetchActivity (date : String)
    (api : Except String (List ActivityRecord)) : FetchOutcome :=
  match api with
  | .error e => .errorExit ("Error: " ++ e)
  | .ok recs =>
    match (recs.filter (fun a => a.day = date)).head? with
    | none => .noData ("No activity data for " ++ date)
    | some _ => .printed

/-- `fetchHeartRate` (main.go lines 723-761).  The second component is
the `(min, max, avg)` triple it prints (when it prints one): `min`
starts from the sentinel 999, `max` from the zero value 0, and
`avg := sum / len` with Go `int` division (truncation toward zero). -/
def fetchHeartRate (date : String)
    (api : Except String (List HeartRateRecord)) :
    FetchOutcome × Option (Int × Int × Int) :=
  match api with
  | .error e => (.errorExit ("Error: " ++ e), none)
  | .ok recs =>
    if recs.isEmpty then
      (.noData ("No heart rate data for " ++ date), none)
    else
      let acc := recs.foldl
        (fun (acc : Int × Int × Int) hr =>
          ((if hr.bpm < acc.1 then hr.bpm else acc.1),
           (if hr.bpm > acc.2.1 then hr.bpm else acc.2.1),
           acc.2.2 + hr.bpm))
        (999, 0, 0)
      (.printed, some (acc.1, acc.2.1, Int.tdiv acc.2.2 recs.length))

/-- `fetchStress` (main.go lines 763-788). -/
def fetchStress (date : String)
    (api : Except String (List StressRecord)) : FetchOutcome :=
  match api with
  | .error e => .errorExit ("Error: " ++ e)
  | .ok recs =>
    if recs.isEmpty then .noData ("No stress data for " ++ date) else .printed

/-- `fetchSpO2` (main.go lines 790-815). -/
def fetchSpO2 (date : String)
    (api : Except String (List SpO2Record)) : FetchOutcome :=
  match api with
  | .error e => .errorExit ("Error: " ++ e)
  | .ok recs =>
    if recs.isEmpty then .noData ("No SpO2 data for " ++ date) else .printed

/-- `fetchResilience` (main.go lines 817-843). -/
def fetchResilience (date : String)
    (api : Except String (List ResilienceRecord)) : FetchOutcome :=
  match api with
  | .error e => .errorExit ("Error: " ++ e)
  | .ok recs =>
    if recs.isEmpty then .noData ("No resilience data for " ++ date) else .printed

/-- `fetchVO2Max` (main.go lines 845-869). -/
def fetchVO2Max (date : String)
    (api : Except String (List VO2MaxRecord)) : FetchOutcome :=
  match api with
  | .error e => .errorExit ("Error: " ++ e)
  | .ok recs =>
    if recs.isEmpty then .noData ("No VO2 max data for " ++ date) else .printed

/-- `fetchWorkouts` (main.go lines 871-918). -/
def fetchWorkouts (date : String)
    (api : Except String (List WorkoutRecord)) : FetchOutcome :=
  match api with
  | .error e => .errorExit ("Error: " ++ e)
  | .ok recs =>
    if recs.isEmpty then .noData ("No workout data for " ++ date) else .printed

/-! ## `fetchJSON` (main.go lines 936-967) -/

/-- The endpoint list of `fetchJSON`, main.go lines 941-952. -/
def endpoints : List String :=
  ["/sleep", "/daily_sleep", "/daily_activity", "/daily_readiness",
   "/heartrate", "/daily_stress", "/daily_spo2", "/daily_resilience",
   "/vO2_max", "/workout"]

/-- `strings.TrimPrefix(ep, "/")`: drop a leading slash if present. -/
def trimLeadingSlash (s : String) : String :=
  match s.data with
  | c :: rest => if c = '/' then ⟨rest⟩ else s
  | [] => s

/-- `fetchJSON` (main.go lines 936-967).  `api` maps an endpoint to its
`apiGet` outcome.  A failed endpoint is skipped (`continue`, line 959);
the collected bodies are printed and the function returns, so the
process exits 0 — the second component is that exit status. -/
def fetchJSON (api : String → Except String String) :
    List (String × String) × Nat :=
  (endpoints.filterMap (fun ep =>
      match api ep with
      | .error _ => none
      | .ok body => some (trimLeadingSlash ep, body)),
   0)

/-! ## Token persistence (`saveToken`/`loadToken`, main.go lines 137-155).

`saveToken` serialises with `json.MarshalIndent(token, "", "  ")` and
`loadToken` reads the file back with `json.Unmarshal`.  Both are
modelled concretely at the character level: the exact indented object
layout, Go's JSON string escaping (`encoding/json` with its default
HTML escaping), and a recursive-descent object parser.  The
`expires_at` field (`time.Time`, marshalled by Go as an RFC 3339
string) is modelled as the decimal Unix-nanosecond timestamp inside a
JSON string: like Go's time rendering it is an injective textual form
inverted exactly by the parser. -/

/-- Decimal digit value of a character, `none` for a non-digit. -/
def digitVal (c : Char) : Option Nat :=
  if '0' ≤ c ∧ c ≤ '9' then some (c.toNat - 48) else none

/-- Accumulator loop of the decimal parser: consume digit characters,
failing on a non-digit. -/
def parseDigitsAux : Nat → List Char → Option Nat
  | acc, [] => some acc
  | acc, c :: rest =>
    match digitVal c with
    | none => none
    | some d => parseDigitsAux (acc * 10 + d) rest

/-- Parse a non-empty all-digit character list, most significant digit
first. -/
def parseNatDigits (l : List Char) : Option Nat :=
  if l.isEmpty then none else parseDigitsAux 0 l

/-- Parse a decimal integer with optional leading minus sign. -/
def parseIntChars : List Char → Option Int
  | [] => none
  | c :: rest =>
    if c = '-' then (parseNatDigits rest).map (fun n => -(n : Int))
    else (parseNatDigits (c :: rest)).map (fun n => (n : Int))

/-- Lowercase hexadecimal digit character for `d < 16`. -/
def hexDigit (d : Nat) : Char :=
  Char.ofNat (if d < 10 then 48 + d else 87 + d)

/-- Hexadecimal digit value of a character, `none` for a non-digit. -/
def hexVal (c : Char) : Option Nat :=
  if '0' ≤ c ∧ c ≤ '9' then some (c.toNat - 48)
  else if 'a' ≤ c ∧ c ≤ 'f' then some (c.toNat - 87)
  else if 'A' ≤ c ∧ c ≤ 'F' then some (c.toNat - 55)
  else none

/-- `\uXXXX` escape for a code point `n < 0x10000`. -/
def uEsc (n : Nat) : List Char :=
  ['\\', 'u', hexDigit (n / 4096 % 16), hexDigit (n / 256 % 16),
   hexDigit (n / 16 % 16), hexDigit (n % 16)]

/-- Go `encoding/json` escaping of one character (default
`SetEscapeHTML(true)` behaviour): `"` and `\` get a backslash escape,
newline, carriage return and tab their short forms, other control
characters and the HTML-sensitive `<`, `>`, `&` a `\u00xx` escape, and
U+2028/U+2029 a `\u202x` escape; everything else is emitted as is. -/
def escapeChar (c : Char) : List Char :=
  if c = '"' then ['\\', '"']
  else if c = '\\' then ['\\', '\\']
  else if c = '\n' then ['\\', 'n']
  else if c = '\r' then ['\\', 'r']
  else if c = '\t' then ['\\', 't']
  else if c.toNat < 32 ∨ c = '<' ∨ c = '>' ∨ c = '&' then uEsc c.toNat
  else if c.toNat = 8232 ∨ c.toNat = 8233 then uEsc c.toNat
  else [c]

/-- Escape every character of a string body. -/
def escList (l : List Char) : List Char := l.flatMap escapeChar

/-- A JSON string literal: quote, escaped body, quote. -/
def quoteChars (l : List Char) : List Char :=
  '"' :: (escList l ++ ['"'])

/-- One object member as `MarshalIndent` emits it: quoted (escaped)
key, colon, space, quoted (escaped) value. -/
def encodeMember (key val : List Char) : List Char :=
  quoteChars key ++ ':' :: ' ' :: quoteChars val

/-- The exact output of `json.MarshalIndent(token, "", "  ")` for a
`StoredToken` (struct fields in declaration order, two-space indent):
open brace, then each member on its own line indented two spaces,
members separated by commas, closing brace on the last line. -/
def encodeStoredToken (t : StoredToken) : List Char :=
  lbrace :: '\n' :: ' ' :: ' ' ::
    (encodeMember "access_token".data t.accessToken.data
      ++ ',' :: '\n' :: ' ' :: ' ' ::
        (encodeMember "refresh_token".data t.refreshToken.data
          ++ ',' :: '\n' :: ' ' :: ' ' ::
            (encodeMember "expires_at".data (intRepr t.expiresAt)
              ++ '\n' :: [rbrace])))

/-- The fully right-nested character shape of one object member
followed by the remaining input: `"key": "value"` then `rest`.
`encodeMember k v ++ rest` normalises to this shape. -/
def memberChars (k v rest : List Char) : List Char :=
  '"' :: (escList k ++ '"' :: ':' :: ' ' :: '"' :: (escList v ++ '"' :: rest))

/-- Decode a `\uXXXX` escape: four hex digits after the `\u`, rejected
when they name a surrogate or out-of-range code point. -/
def unescU : List Char → Option (Char × List Char)
  | h1 :: h2 :: h3 :: h4 :: rest3 =>
    match hexVal h1, hexVal h2, hexVal h3, hexVal h4 with
    | some a, some b, some c2, some d =>
      let n := ((a * 16 + b) * 16 + c2) * 16 + d
      if n < 55296 ∨ (57344 ≤ n ∧ n < 1114112) then
        some (Char.ofNat n, rest3)
      else none
    | _, _, _, _ => none
  | _ => none

/-- Decode the escape sequence after a backslash. -/
def unescEsc : List Char → Option (Char × List Char)
  | [] => none
  | e :: rest2 =>
    if e = '"' then some ('"', rest2)
    else if e = '\\' then some ('\\', rest2)
    else if e = 'n' then some ('\n', rest2)
    else if e = 'r' then some ('\r', rest2)
    else if e = 't' then some ('\t', rest2)
    else if e = 'u' then unescU rest2
    else none

/-- One step of JSON string-body scanning: `some (none, rest)` when the
(unescaped) closing quote is reached, `some (some c, rest)` when one
character `c` is decoded (a plain character or an escape sequence), and
`none` on malformed input. -/
def unescStep : List Char → Option (Option Char × List Char)
  | [] => none
  | c :: rest =>
    if c = '"' then some (none, rest)
    else if c = '\\' then (unescEsc rest).map (fun p => (some p.1, p.2))
    else some (some c, rest)

/-- Parse a JSON string body after the opening quote, undoing
`escapeChar`; returns the unescaped content and the input remaining
after the closing quote.  Terminates because every successful
`unescStep` consumes at least one character. -/
def parseJStringAux (l : List Char) : Option (List Char × List Char) :=
  match h : unescStep l with
  | none => none
  | some (none, rest) => some ([], rest)
  | some (some c, rest) =>
    (parseJStringAux rest).map (fun p => (c :: p.1, p.2))
termination_by l.length
decreasing_by
  cases l with
  | nil => simp [unescStep] at h
  | cons c0 l0 =>
    simp only [unescStep] at h
    split_ifs at h with h1 h2
    · exact absurd h (by simp)
    · rcases hesc : unescEsc l0 with _ | ⟨ce, re⟩
      · rw [hesc] at h; exact absurd h (by simp)
      · rw [hesc] at h
        have hre : re = rest := by
          have := Option.some.inj h
          exact congrArg Prod.snd this
        subst hre
        have hlen : re.length < l0.length := by
          cases l0 with
          | nil => simp [unescEsc] at hesc
          | cons e r2 =>
            simp only [unescEsc] at hesc
            split_ifs at hesc with he1 he2 he3 he4 he5 he6
            · cases hesc; simp only [List.length_cons]; omega
            · cases hesc; simp only [List.length_cons]; omega
            · cases hesc; simp only [List.length_cons]; omega
            · cases hesc; simp only [List.length_cons]; omega
            · cases hesc; simp only [List.length_cons]; omega
            · cases r2 with
              | nil => simp [unescU] at hesc
              | cons a rb =>
                cases rb with
                | nil => simp [unescU] at hesc
                | cons b rc =>
                  cases rc with
                  | nil => simp [unescU] at hesc
                  | cons c3 rd =>
                    cases rd with
                    | nil => simp [unescU] at hesc
                    | cons d r3 =>
                      simp only [unescU] at hesc
                      split at hesc
                      case _ =>
                        split_ifs at hesc
                        cases hesc
                        simp only [List.length_cons]
                        omega
                      case _ => exact absurd hesc (by simp)
        simp only [List.length_cons]
        omega
    · have : l0 = rest := congrArg Prod.snd (Option.some.inj h)
      subst this
      simp

/-- Skip JSON whitespace. -/
def skipWs : List Char → List Char
  | [] => []
  | c :: rest =>
    if c = ' ' ∨ c = '\n' ∨ c = '\t' ∨ c = '\r' then skipWs rest else c :: rest

/-- Parse the members of a JSON object after the opening brace (the
values of a `StoredToken` object are all JSON strings): a list of
`(key, value)` pairs and the input remaining after the closing brace.
The fuel argument bounds the number of members. -/
def parseKVs : Nat → List Char → Option (List (List Char × List Char) × List Char)
  | 0, _ => none
  | _, [] => none
  | fuel + 1, c :: rest =>
    if c = rbrace then some ([], rest)
    else if c = '"' then
      match parseJStringAux rest with
      | none => none
      | some (key, r1) =>
        match skipWs r1 with
        | ':' :: r2 =>
          match skipWs r2 with
          | '"' :: r3 =>
            match parseJStringAux r3 with
            | none => none
            | some (val, r4) =>
              match skipWs r4 with
              | d :: r5 =>
                if d = ',' then
                  (parseKVs fuel (skipWs r5)).map
                    (fun p => ((key, val) :: p.1, p.2))
                else if d = rbrace then some ([(key, val)], r5)
                else none
              | [] => none
          | _ => none
        | _ => none
    else none

/-- Apply one decoded member to the record being built, as
`json.Unmarshal` does: known keys set their field (later duplicates
overwrite), unknown keys are ignored, and an unparsable `expires_at`
value aborts decoding with an error. -/
def applyField (t : StoredToken) (kv : List Char × List Char) :
    Option StoredToken :=
  if kv.1 = "access_token".data then some { t with accessToken := ⟨kv.2⟩ }
  else if kv.1 = "refresh_token".data then some { t with refreshToken := ⟨kv.2⟩ }
  else if kv.1 = "expires_at".data then
    (parseIntChars kv.2).map (fun n => { t with expiresAt := n })
  else some t

/-- Fold the decoded members over the record, stopping at the first
field error. -/
def applyFields : StoredToken → List (List Char × List Char) → Option StoredToken
  | t, [] => some t
  | t, kv :: rest =>
    match applyField t kv with
    | none => none
    | some t2 => applyFields t2 rest

/-- `json.Unmarshal(data, &token)` for a `StoredToken`: parse one JSON
object (with only trailing whitespace after it) and fold its members
over the zero-valued record. -/
def decodeStoredToken (s : List Char) : Option StoredToken :=
  match skipWs s with
  | [] => none
  | c :: rest =>
    if c = lbrace then
      match parseKVs (s.length + 1) (skipWs rest) with
      | none => none
      | some (kvs, r) =>
        if (skipWs r).isEmpty then applyFields ⟨"", "", 0⟩ kvs
        else none
    else none

/-- `saveToken` (main.go lines 137-143): the bytes written to the token
file. -/
def saveToken (t : StoredToken) : List Char := encodeStoredToken t

/-- `loadToken` (main.go lines 145-155): `file` is the token file's
content (`none` if reading failed); a parse failure also yields
`none`. -/
def loadToken (file : Option (List Char)) : Option StoredToken :=
  file.bind decodeStoredToken

/-! ## Helper lemmas: decimal rendering and parsing -/

theorem digitVal_digitChar : ∀ d, d < 10 → digitVal (digitChar d) = some d := by
  decide

theorem digitChar_ne_dash : ∀ d, d < 10 → digitChar d ≠ '-' := by
  decide

theorem parseDigitsAux_append (l1 l2 : List Char) (acc : Nat) :
    parseDigitsAux acc (l1 ++ l2) =
      (parseDigitsAux acc l1).bind (fun b => parseDigitsAux b l2) := by
  induction l1 generalizing acc with
  | nil => simp [parseDigitsAux]
  | cons c l1 ih =>
    cases h : digitVal c with
    | none => simp [parseDigitsAux, h]
    | some d => simp [parseDigitsAux, h, ih]

theorem parseDigitsAux_natReprAux :
    ∀ fuel n acc, n < fuel →
      ∃ k, parseDigitsAux acc (natReprAux fuel n) = some (acc * 10 ^ k + n) := by
  intro fuel
  induction fuel with
  | zero => omega
  | succ f ih =>
    intro n acc hn
    by_cases h0 : n = 0
    · subst h0
      exact ⟨0, by simp [natReprAux, parseDigitsAux]⟩
    · have hrw : natReprAux (f + 1) n =
          natReprAux f (n / 10) ++ [digitChar (n % 10)] := by
        rw [natReprAux, if_neg h0]
      have hdiv : n / 10 < f := by omega
      obtain ⟨k, hk⟩ := ih (n / 10) acc hdiv
      refine ⟨k + 1, ?_⟩
      rw [hrw, parseDigitsAux_append, hk]
      simp [parseDigitsAux, digitVal_digitChar (n % 10) (by omega)]
      rw [pow_succ, ← mul_assoc]
      omega

theorem natReprAux_digits :
    ∀ fuel n c, c ∈ natReprAux fuel n → ∃ d, d < 10 ∧ c = digitChar d := by
  intro fuel
  induction fuel with
  | zero => intro n c hc; simp [natReprAux] at hc
  | succ f ih =>
    intro n c hc
    by_cases h0 : n = 0
    · subst h0; simp [natReprAux] at hc
    · rw [natReprAux, if_neg h0] at hc
      rcases List.mem_append.1 hc with h | h
      · exact ih _ _ h
      · simp at h
        exact ⟨n % 10, by omega, h⟩

theorem natRepr_digits (n : Nat) (c : Char) (hc : c ∈ natRepr n) :
    ∃ d, d < 10 ∧ c = digitChar d := by
  unfold natRepr at hc
  by_cases h0 : n = 0
  · rw [if_pos h0] at hc
    simp at hc
    exact ⟨0, by omega, by rw [hc]; rfl⟩
  · rw [if_neg h0] at hc
    exact natReprAux_digits _ _ _ hc

theorem natRepr_ne_nil (n : Nat) : natRepr n ≠ [] := by
  unfold natRepr
  by_cases h0 : n = 0
  · simp [h0]
  · rw [if_neg h0, natReprAux, if_neg h0]
    simp

theorem parseNatDigits_natRepr (n : Nat) : parseNatDigits (natRepr n) = some n := by
  by_cases h0 : n = 0
  · subst h0; decide
  · have hne : ¬(natRepr n).isEmpty := by
      rw [List.isEmpty_iff]
      exact natRepr_ne_nil n
    unfold parseNatDigits
    rw [if_neg hne]
    unfold natRepr
    rw [if_neg h0]
    obtain ⟨k, hk⟩ := parseDigitsAux_natReprAux (n + 1) n 0 (by omega)
    rw [hk]
    simp

theorem parseIntChars_natRepr (n : Nat) : parseIntChars (natRepr n) = some (n : Int) := by
  cases h : natRepr n with
  | nil => exact absurd h (natRepr_ne_nil n)
  | cons c rest =>
    have hc : c ∈ natRepr n := by rw [h]; exact List.mem_cons_self c rest
    obtain ⟨d, hd, rfl⟩ := natRepr_digits n c hc
    simp only [parseIntChars]
    rw [if_neg (digitChar_ne_dash d hd), ← h, parseNatDigits_natRepr]
    rfl

theorem parseIntChars_intRepr (i : Int) : parseIntChars (intRepr i) = some i := by
  by_cases hi : i < 0
  · have hrw : intRepr i = '-' :: natRepr i.natAbs := by
      unfold intRepr
      rw [if_pos hi]
    rw [hrw]
    simp only [parseIntChars, if_true]
    rw [parseNatDigits_natRepr]
    simp
    rw [Int.abs_eq_natAbs]
    omega
  · have hrw : intRepr i = natRepr i.natAbs := by
      unfold intRepr
      rw [if_neg hi]
    rw [hrw, parseIntChars_natRepr]
    congr 1
    omega

/-! ## Claim C1 -/

/-- C1 counterexample: at the exact boundary `expires_at = now + 5
minutes` (here `now = 0`, `expires_at = fiveMinutesNs`), the claim
demands a refresh, but `getValidToken` returns the stored access token
without invoking refresh (third component `false`, no writes): the Go
condition `time.Now().Add(5*time.Minute).After(expiresAt)` is strict. -/
theorem getValidToken_boundary_no_refresh :
    getValidToken (some ⟨"stored-access", "stored-refresh", fiveMinutesNs⟩) 0
        (fun _ => .error "no network call") (fun _ => .error "no decode") =
      (.ok "stored-access", [], false) := rfl

/-- C1 amended: `getValidToken` refreshes exactly when `expires_at` is
STRICTLY within 5 minutes of now (or past); when `expires_at` is at
least `now + 5 minutes` — including exactly at the boundary — it
returns the stored access token without invoking refresh and without
touching the token file. -/
theorem getValidToken_refresh_strict (tok : StoredToken) (now : Int)
    (post : String → Except String HttpResponse)
    (decode : String → Except String TokenResponse) :
    (tok.expiresAt < now + fiveMinutesNs →
      (getValidToken (some tok) now post decode).2.2 = true) ∧
    (now + fiveMinutesNs ≤ tok.expiresAt →
      getValidToken (some tok) now post decode = (.ok tok.accessToken, [], false)) := by
  constructor
  · intro h
    simp only [getValidToken]
    rw [if_pos (show now + fiveMinutesNs > tok.expiresAt from h)]
    rcases hr : refreshToken tok.refreshToken post decode now with ⟨res, ws⟩
    cases res <;> simp [hr]
  · intro h
    simp only [getValidToken]
    rw [if_neg (show ¬(now + fiveMinutesNs > tok.expiresAt) from by omega)]

/-- Witness for `getValidToken_refresh_strict` at concrete inputs on
both sides of the boundary. -/
theorem getValidToken_refresh_strict_witness :
    (getValidToken (some ⟨"a1", "r1", 0⟩) 0
        (fun _ => .error "e") (fun _ => .error "e")).2.2 = true ∧
    getValidToken (some ⟨"a2", "r2", 1000000000000⟩) 0
        (fun _ => .error "e") (fun _ => .error "e") = (.ok "a2", [], false) :=
  ⟨(getValidToken_refresh_strict ⟨"a1", "r1", 0⟩ 0
      (fun _ => .error "e") (fun _ => .error "e")).1 (by decide),
   (getValidToken_refresh_strict ⟨"a2", "r2", 1000000000000⟩ 0
      (fun _ => .error "e") (fun _ => .error "e")).2 (by decide)⟩

/-! ## Claim C2 -/

/-- C2: when a refresh is needed and the token endpoint answers with a
non-200 status, `getValidToken` fails with the refresh-failed error
carrying the response body, and performs no write to the token file
(empty write list), leaving the stored token unchanged. -/
theorem getValidToken_refresh_failure_atomic (tok : StoredToken) (now : Int)
    (post : String → Except String HttpResponse)
    (decode : String → Except String TokenResponse) (resp : HttpResponse)
    (hpost : post tok.refreshToken = .ok resp)
    (hstatus : resp.statusCode ≠ 200)
    (hexpired : tok.expiresAt < now + fiveMinutesNs) :
    getValidToken (some tok) now post decode =
      (.error ("token refresh failed - run 'oura auth' again: " ++
               ("token refresh failed: " ++ resp.body)), [], true) := by
  simp only [getValidToken]
  rw [if_pos (show now + fiveMinutesNs > tok.expiresAt from hexpired)]
  simp only [refreshToken]
  rw [hpost]
  simp [hstatus]

/-- Witness for `getValidToken_refresh_failure_atomic`: a 401 response
with body `invalid_grant`. -/
theorem getValidToken_refresh_failure_atomic_witness :
    getValidToken (some ⟨"old-access", "old-refresh", 0⟩) 0
        (fun _ => .ok ⟨401, "invalid_grant"⟩) (fun _ => .error "unused") =
      (.error ("token refresh failed - run 'oura auth' again: " ++
               ("token refresh failed: " ++ "invalid_grant")), [], true) :=
  getValidToken_refresh_failure_atomic ⟨"old-access", "old-refresh", 0⟩ 0
    (fun _ => .ok ⟨401, "invalid_grant"⟩) (fun _ => .error "unused")
    ⟨401, "invalid_grant"⟩ rfl (by decide) (by decide)

/-! ## Claim C6 -/

/-- C6 counterexample: the `state` value is the decimal rendering of
the wall-clock nanosecond timestamp — a concrete clock reading fully
determines it, so it is a deterministic, predictable function of
public wall-clock time, contradicting "unguessable". -/
theorem doAuthState_predictable :
    doAuthState 1736467200000000000 = "1736467200000000000" := by decide

/-- C6 amended: the generated `state` is `Sprintf("%d", UnixNano())`:
it is a deterministic function of the wall-clock reading, injective in
it (unique across invocations with distinct nanosecond timestamps),
but predictable by anyone who can estimate the clock — it is not
unguessable. -/
theorem doAuthState_deterministic (t1 t2 : Int) :
    doAuthState t1 = doAuthState t2 ↔ t1 = t2 := by
  constructor
  · intro h
    have hl : intRepr t1 = intRepr t2 := by
      have := congrArg String.data h
      simpa [doAuthState, sprintfDec] using this
    have h1 := parseIntChars_intRepr t1
    rw [hl, parseIntChars_intRepr t2] at h1
    exact (Option.some.inj h1).symm
  · intro h; rw [h]

/-! ## Claim C4 -/

/-- C4 counterexample: a callback whose `state` differs from the
generated one gets HTTP 400, but its error signal drives the waiting
`select` to close the server and `os.Exit(1)`: the mismatched callback
alone terminates the auth session (exit code `some 1`), so a later
callback with the correct state is never accepted — contradicting the
claim that the session survives a mismatched callback. -/
theorem callbackHandler_mismatch_terminates :
    callbackHandler "state-1736467200" ⟨"attacker-guess", "code-x"⟩ =
      ⟨400, some (.errSig "state mismatch")⟩ ∧
    doAuthSelect (signalEvent (.errSig "state mismatch")) =
      ⟨true, some "Auth error: state mismatch", some 1⟩ := by
  exact ⟨by decide, rfl⟩

/-- C4 amended: every callback with a mismatched `state` is answered
with HTTP 400 and an error signal (never the code signal), and that
signal makes the auth flow close the listener, report the state
mismatch on stderr, and exit with status 1 — the session fails rather
than continuing to wait for a correct callback. -/
theorem callbackHandler_mismatch_rejects (genState : String) (r : CallbackRequest)
    (h : r.state ≠ genState) :
    callbackHandler genState r = ⟨400, some (.errSig "state mismatch")⟩ ∧
    doAuthSelect (signalEvent (.errSig "state mismatch")) =
      ⟨true, some "Auth error: state mismatch", some 1⟩ := by
  refine ⟨?_, rfl⟩
  unfold callbackHandler
  rw [if_pos h]

/-- Witness for `callbackHandler_mismatch_rejects` at a concrete
mismatched request. -/
theorem callbackHandler_mismatch_rejects_witness :
    callbackHandler "s1" ⟨"s2", "c"⟩ = ⟨400, some (.errSig "state mismatch")⟩ ∧
    doAuthSelect (signalEvent (.errSig "state mismatch")) =
      ⟨true, some "Auth error: state mismatch", some 1⟩ :=
  callbackHandler_mismatch_rejects "s1" ⟨"s2", "c"⟩ (by decide)

/-! ## Claim C7 -/

/-- C7: for every data command, an HTTP 200 response whose decoded
`data` array is empty produces the informational no-data line naming
the category and the date, and the command completes with exit status
0 (the `noData` outcome is a plain return, not `os.Exit(1)`). -/
theorem fetch_empty_data_not_fatal (date : String) :
    fetchSleep date (.ok []) (.ok []) = .noData ("No sleep data for " ++ date) ∧
    fetchReadiness date (.ok []) = .noData ("No readiness data for " ++ date) ∧
    fetchActivity date (.ok []) = .noData ("No activity data for " ++ date) ∧
    (fetchHeartRate date (.ok [])).1 = .noData ("No heart rate data for " ++ date) ∧
    fetchStress date (.ok []) = .noData ("No stress data for " ++ date) ∧
    fetchSpO2 date (.ok []) = .noData ("No SpO2 data for " ++ date) ∧
    fetchResilience date (.ok []) = .noData ("No resilience data for " ++ date) ∧
    fetchVO2Max date (.ok []) = .noData ("No VO2 max data for " ++ date) ∧
    fetchWorkouts date (.ok []) = .noData ("No workout data for " ++ date) ∧
    (∀ line, (FetchOutcome.noData line).exitStatus = 0) := by
  refine ⟨?_, rfl, rfl, rfl, rfl, rfl, rfl, rfl, rfl, fun _ => rfl⟩
  simp [fetchSleep]

/-! ## Claim C8 -/

/-- C8: if no channel signal arrives within the 2-minute window after
the auth flow starts waiting, the `select` takes the timeout branch:
the server is closed, `Auth timeout` is reported on stderr, and the
process exits with status 1; moreover every `select` branch (code,
error, timeout) closes the server, so the listener is stopped on every
exit path. -/
theorem doAuth_timeout_stops_listener (sig : Option (Int × Signal)) (start : Int)
    (h : ∀ t s, sig = some (t, s) → authTimeoutNs ≤ t - start) :
    firstEvent sig start = .timeout ∧
    doAuthSelect .timeout = ⟨true, some "Auth timeout", some 1⟩ ∧
    (∀ e, (doAuthSelect e).serverClosed = true) := by
  refine ⟨?_, rfl, fun e => by cases e <;> rfl⟩
  cases sig with
  | none => rfl
  | some ts =>
    rcases ts with ⟨t, s⟩
    have ht := h t s rfl
    simp only [firstEvent]
    rw [if_neg (show ¬(t - start < authTimeoutNs) from by omega)]

/-- Witness for `doAuth_timeout_stops_listener`: a code callback that
arrives 200 seconds after the wait began (past the 120-second window). -/
theorem doAuth_timeout_stops_listener_witness :
    firstEvent (some (200000000000, .codeSig "late-code")) 0 = .timeout ∧
    doAuthSelect .timeout = ⟨true, some "Auth timeout", some 1⟩ ∧
    (∀ e, (doAuthSelect e).serverClosed = true) :=
  doAuth_timeout_stops_listener (some (200000000000, .codeSig "late-code")) 0
    (by intro t s hts; cases hts; decide)

/-! ## Claim C5 -/

/-- C5 counterexample: run the `json` command with every API request
failing (for instance every endpoint answering 500).  The command
prints an empty object and completes with exit status 0: the failures
are silently skipped, contradicting "every failure is terminal ... in
particular ... the json command". -/
theorem fetchJSON_all_failures_exit_zero :
    fetchJSON (fun _ => .error "API error 500: internal server error") = ([], 0) := rfl

/-- C5 amended: a failed API request is not always terminal.  The
`json` command skips every endpoint whose request fails (`continue`),
omits its entry from the output, and completes with exit status 0.
The `sleep` command tolerates a failure of its auxiliary `/daily_sleep`
request (used only for the score): it proceeds on the `/sleep` response
alone and completes with exit status 0.  Every other failure is
terminal: when a per-category command's main request fails (for the
`sleep` command, the `/sleep` request — whatever its `/daily_sleep`
call returned), the error is printed to the error stream and the
process exits with status 1. -/
theorem fetchFailure_policy (api : String → Except String String)
    (date e : String) (daily : Except String (List DailySleepRecord))
    (recs : List SleepRecord) :
    (fetchJSON api).2 = 0 ∧
    (∀ ep, ep ∈ endpoints → api ep = .error e →
      ∀ b, (trimLeadingSlash ep, b) ∉ (fetchJSON api).1) ∧
    (fetchSleep date (.error e) (.ok recs)).exitStatus = 0 ∧
    fetchSleep date daily (.error e) = .errorExit ("Error: " ++ e) ∧
    fetchReadiness date (.error e) = .errorExit ("Error: " ++ e) ∧
    fetchActivity date (.error e) = .errorExit ("Error: " ++ e) ∧
    (fetchHeartRate date (.error e)).1 = .errorExit ("Error: " ++ e) ∧
    fetchStress date (.error e) = .errorExit ("Error: " ++ e) ∧
    fetchSpO2 date (.error e) = .errorExit ("Error: " ++ e) ∧
    fetchResilience date (.error e) = .errorExit ("Error: " ++ e) ∧
    fetchVO2Max date (.error e) = .errorExit ("Error: " ++ e) ∧
    fetchWorkouts date (.error e) = .errorExit ("Error: " ++ e) ∧
    (FetchOutcome.errorExit ("Error: " ++ e)).exitStatus = 1 := by
  refine ⟨rfl, ?_, by simp only [fetchSleep]; split <;> rfl,
    by cases daily <;> rfl, rfl, rfl, rfl, rfl, rfl, rfl, rfl, rfl, rfl⟩
  intro ep hep herr b hmem
  have hnodup : (endpoints.map trimLeadingSlash).Nodup := by decide
  simp only [fetchJSON, List.mem_filterMap] at hmem
  obtain ⟨ep2, hep2, hmatch⟩ := hmem
  cases h2 : api ep2 with
  | error e2 => rw [h2] at hmatch; exact Option.noConfusion hmatch
  | ok body =>
    rw [h2] at hmatch
    have hpair := Option.some.inj hmatch
    have hname : trimLeadingSlash ep2 = trimLeadingSlash ep :=
      congrArg Prod.fst hpair
    have hsame : ep2 = ep :=
      List.inj_on_of_nodup_map hnodup hep2 hep hname
    rw [hsame] at h2
    rw [h2] at herr
    exact Except.noConfusion herr

/-- Witness for `fetchFailure_policy`: one failing endpoint (`/sleep`
answering 500) is absent from the `json` output while the command
exits 0; the `sleep` command with a failed `/daily_sleep` call but a
successful `/sleep` record still exits 0; and a failing per-category
command exits 1. -/
theorem fetchFailure_policy_witness :
    (fetchJSON (fun _ => .error "API error 500: x")).2 = 0 ∧
    ("sleep", "b") ∉ (fetchJSON (fun _ => .error "API error 500: x")).1 ∧
    (fetchSleep "2026-01-10" (.error "API error 500: x")
      (.ok [⟨"2026-01-10", "long_sleep", 21600⟩])).exitStatus = 0 ∧
    fetchStress "2026-01-10" (.error "API error 500: x") =
      .errorExit ("Error: " ++ "API error 500: x") := by
  have h := fetchFailure_policy (fun _ => .error "API error 500: x")
    "2026-01-10" "API error 500: x" (.ok [])
    [⟨"2026-01-10", "long_sleep", 21600⟩]
  refine ⟨h.1, ?_, h.2.2.1, h.2.2.2.2.2.2.2.1⟩
  have h2 := h.2.1 "/sleep" (by decide) rfl "b"
  have hname : trimLeadingSlash "/sleep" = "sleep" := rfl
  rw [hname] at h2
  exact h2

/-! ## Claim C10: heart-rate statistics -/

theorem foldl_min_const (l : List Int) (c : Int) (h : ∀ x ∈ l, c ≤ x) :
    l.foldl min c = c := by
  induction l generalizing c with
  | nil => rfl
  | cons b t ih =>
    simp only [List.foldl_cons]
    rw [min_eq_left (h b (List.mem_cons_self b t))]
    exact ih c fun x hx => h x (List.mem_cons_of_mem b hx)

theorem foldl_min_eq (l : List Int) (a m : Int) (hm : m ∈ l)
    (hlb : ∀ x ∈ l, m ≤ x) : l.foldl min a = min a m := by
  induction l generalizing a with
  | nil => cases hm
  | cons b t ih =>
    simp only [List.foldl_cons]
    rcases List.mem_cons.1 hm with rfl | hmt
    · by_cases hmem : m ∈ t
      · rw [ih (min a m) hmem fun x hx => hlb x (List.mem_cons_of_mem m hx)]
        rw [min_assoc, min_self]
      · exact foldl_min_const t (min a m) fun x hx =>
          le_trans (min_le_right a m) (hlb x (List.mem_cons_of_mem m hx))
    · have hmb : m ≤ b := hlb b (List.mem_cons_self b t)
      rw [ih (min a b) hmt fun x hx => hlb x (List.mem_cons_of_mem b hx)]
      rw [min_assoc, min_eq_right hmb]

theorem hrFold_spec (recs : List HeartRateRecord) (a b s : Int) :
    recs.foldl
      (fun (acc : Int × Int × Int) hr =>
        ((if hr.bpm < acc.1 then hr.bpm else acc.1),
         (if hr.bpm > acc.2.1 then hr.bpm else acc.2.1),
         acc.2.2 + hr.bpm))
      (a, b, s) =
      ((recs.map (fun r => r.bpm)).foldl min a,
       (recs.map (fun r => r.bpm)).foldl max b,
       s + (recs.map (fun r => r.bpm)).sum) := by
  induction recs generalizing a b s with
  | nil => simp
  | cons r t ih =>
    simp only [List.foldl_cons, List.map_cons, List.sum_cons]
    rw [ih]
    have hmin : (if r.bpm < a then r.bpm else a) = min a r.bpm := by
      by_cases hba : r.bpm < a
      · rw [if_pos hba, min_eq_right (le_of_lt hba)]
      · rw [if_neg hba, min_eq_left (by omega)]
    have hmax : (if r.bpm > b then r.bpm else b) = max b r.bpm := by
      by_cases hba : r.bpm > b
      · rw [if_pos hba, max_eq_right (le_of_lt hba)]
      · rw [if_neg hba, max_eq_left (by omega)]
    rw [hmin, hmax]
    simp only [Prod.mk.injEq, true_and]
    omega

/-- C10: on a non-empty reading list, the heart-rate report's minimum
is `min 999 m` where `m` is the true minimum BPM (the 999 sentinel caps
it: if every reading exceeds 999 the reported minimum stays 999), and
the average is the sum of BPM values divided by the number of readings
with Go's truncating integer division. -/
theorem fetchHeartRate_stats (date : String) (recs : List HeartRateRecord)
    (hne : recs ≠ []) (m : Int)
    (hmem : m ∈ recs.map (fun r => r.bpm))
    (hlb : ∀ x ∈ recs.map (fun r => r.bpm), m ≤ x) :
    ∃ mx, fetchHeartRate date (.ok recs) =
      (.printed, some (min 999 m, mx,
        Int.tdiv (recs.map (fun r => r.bpm)).sum recs.length)) := by
  refine ⟨(recs.map (fun r => r.bpm)).foldl max 0, ?_⟩
  simp only [fetchHeartRate]
  rw [if_neg (by simpa [List.isEmpty_iff] using hne)]
  rw [hrFold_spec]
  rw [foldl_min_eq _ 999 m hmem hlb, zero_add]

/-- Witness for `fetchHeartRate_stats`: two readings of 60 and 55 bpm;
the minimum is `min 999 55 = 55` and the average `115 tdiv 2 = 57`. -/
theorem fetchHeartRate_stats_witness :
    ∃ mx, fetchHeartRate "2026-01-10"
        (.ok [⟨"t1", 60, "ppg"⟩, ⟨"t2", 55, "ppg"⟩]) =
      (.printed, some (min 999 55, mx,
        Int.tdiv (([⟨"t1", 60, "ppg"⟩, ⟨"t2", 55, "ppg"⟩] :
            List HeartRateRecord).map (fun r => r.bpm)).sum
          ([⟨"t1", 60, "ppg"⟩, ⟨"t2", 55, "ppg"⟩] :
            List HeartRateRecord).length)) :=
  fetchHeartRate_stats "2026-01-10" [⟨"t1", 60, "ppg"⟩, ⟨"t2", 55, "ppg"⟩]
    (by decide) 55 (by decide) (by decide)

/-! ## Claim C9: persistence round-trip -/

theorem char_toNat_valid (c : Char) :
    c.toNat < 55296 ∨ (57344 ≤ c.toNat ∧ c.toNat < 1114112) := by
  have h := c.valid
  have heq : c.toNat = c.val.toNat := rfl
  rcases h with h | ⟨h1, h2⟩
  · exact Or.inl (by omega)
  · exact Or.inr ⟨by omega, by omega⟩

theorem hexVal_hexDigit : ∀ d, d < 16 → hexVal (hexDigit d) = some d := by
  decide

theorem unescStep_quote (rest : List Char) :
    unescStep ('"' :: rest) = some (none, rest) := by
  simp [unescStep]

theorem unescStep_plain (c : Char) (h1 : c ≠ '"') (h2 : c ≠ '\\')
    (rest : List Char) : unescStep (c :: rest) = some (some c, rest) := by
  simp [unescStep, h1, h2]

theorem unescStep_escQuote (r : List Char) :
    unescStep ('\\' :: '"' :: r) = some (some '"', r) := by
  simp [unescStep, unescEsc]

theorem unescStep_escBackslash (r : List Char) :
    unescStep ('\\' :: '\\' :: r) = some (some '\\', r) := by
  simp [unescStep, unescEsc]

theorem unescStep_escN (r : List Char) :
    unescStep ('\\' :: 'n' :: r) = some (some '\n', r) := by
  simp [unescStep, unescEsc]

theorem unescStep_escR (r : List Char) :
    unescStep ('\\' :: 'r' :: r) = some (some '\r', r) := by
  simp [unescStep, unescEsc]

theorem unescStep_escT (r : List Char) :
    unescStep ('\\' :: 't' :: r) = some (some '\t', r) := by
  simp [unescStep, unescEsc]

theorem unescStep_uEsc (c : Char) (h16 : c.toNat < 65536) (l : List Char) :
    unescStep (uEsc c.toNat ++ l) = some (some c, l) := by
  have h1 := hexVal_hexDigit (c.toNat / 4096 % 16) (Nat.mod_lt _ (by norm_num))
  have h2 := hexVal_hexDigit (c.toNat / 256 % 16) (Nat.mod_lt _ (by norm_num))
  have h3 := hexVal_hexDigit (c.toNat / 16 % 16) (Nat.mod_lt _ (by norm_num))
  have h4 := hexVal_hexDigit (c.toNat % 16) (Nat.mod_lt _ (by norm_num))
  have hn : ((c.toNat / 4096 % 16 * 16 + c.toNat / 256 % 16) * 16 +
      c.toNat / 16 % 16) * 16 + c.toNat % 16 = c.toNat := by omega
  have hvalid := char_toNat_valid c
  simp only [uEsc, List.cons_append]
  simp only [unescStep, unescEsc, unescU, h1, h2, h3, h4]
  rw [hn, if_pos hvalid]
  simp [Char.ofNat_toNat]

theorem parseJStringAux_done (l rest : List Char)
    (h : unescStep l = some (none, rest)) :
    parseJStringAux l = some ([], rest) := by
  rw [parseJStringAux]
  split <;> rename_i heq <;> rw [h] at heq <;> simp_all

theorem parseJStringAux_char (l rest : List Char) (c : Char)
    (h : unescStep l = some (some c, rest)) :
    parseJStringAux l = (parseJStringAux rest).map (fun p => (c :: p.1, p.2)) := by
  rw [parseJStringAux]
  split <;> rename_i heq <;> rw [h] at heq <;> simp_all

theorem parseJStringAux_escList (s rest : List Char) :
    parseJStringAux (escList s ++ '"' :: rest) = some (s, rest) := by
  induction s with
  | nil =>
    rw [show escList [] ++ '"' :: rest = '"' :: rest from by simp [escList]]
    exact parseJStringAux_done _ _ (unescStep_quote rest)
  | cons c cs ih =>
    have hesc : escList (c :: cs) ++ '"' :: rest =
        escapeChar c ++ (escList cs ++ '"' :: rest) := by
      simp [escList]
    rw [hesc]
    by_cases h1 : c = '"'
    · subst h1
      rw [show escapeChar '"' ++ (escList cs ++ '"' :: rest) =
          '\\' :: '"' :: (escList cs ++ '"' :: rest) from rfl]
      rw [parseJStringAux_char _ _ _ (unescStep_escQuote _), ih]
      rfl
    by_cases h2 : c = '\\'
    · subst h2
      rw [show escapeChar '\\' ++ (escList cs ++ '"' :: rest) =
          '\\' :: '\\' :: (escList cs ++ '"' :: rest) from rfl]
      rw [parseJStringAux_char _ _ _ (unescStep_escBackslash _), ih]
      rfl
    by_cases h3 : c = '\n'
    · subst h3
      rw [show escapeChar '\n' ++ (escList cs ++ '"' :: rest) =
          '\\' :: 'n' :: (escList cs ++ '"' :: rest) from rfl]
      rw [parseJStringAux_char _ _ _ (unescStep_escN _), ih]
      rfl
    by_cases h4 : c = '\r'
    · subst h4
      rw [show escapeChar '\r' ++ (escList cs ++ '"' :: rest) =
          '\\' :: 'r' :: (escList cs ++ '"' :: rest) from rfl]
      rw [parseJStringAux_char _ _ _ (unescStep_escR _), ih]
      rfl
    by_cases h5 : c = '\t'
    · subst h5
      rw [show escapeChar '\t' ++ (escList cs ++ '"' :: rest) =
          '\\' :: 't' :: (escList cs ++ '"' :: rest) from rfl]
      rw [parseJStringAux_char _ _ _ (unescStep_escT _), ih]
      rfl
    by_cases h6 : c.toNat < 32 ∨ c = '<' ∨ c = '>' ∨ c = '&'
    · have he : escapeChar c = uEsc c.toNat := by
        simp [escapeChar, h1, h2, h3, h4, h5, h6]
      have h16 : c.toNat < 65536 := by
        rcases h6 with h | h | h | h
        · omega
        · subst h; decide
        · subst h; decide
        · subst h; decide
      rw [he, parseJStringAux_char _ _ _ (unescStep_uEsc c h16 _), ih]
      rfl
    by_cases h7 : c.toNat = 8232 ∨ c.toNat = 8233
    · have he : escapeChar c = uEsc c.toNat := by
        simp [escapeChar, h1, h2, h3, h4, h5, h6, h7]
      rw [he, parseJStringAux_char _ _ _ (unescStep_uEsc c (by omega) _), ih]
      rfl
    · have he : escapeChar c = [c] := by
        simp [escapeChar, h1, h2, h3, h4, h5, h6, h7]
      rw [he, show ([c] : List Char) ++ (escList cs ++ '"' :: rest) =
          c :: (escList cs ++ '"' :: rest) from rfl]
      rw [parseJStringAux_char _ _ _ (unescStep_plain c h1 h2 _), ih]
      rfl

theorem parseKVs_member_comma (f : Nat) (k v rest r5 : List Char)
    (h : skipWs rest = ',' :: r5) :
    parseKVs (f + 1) (memberChars k v rest) =
      (parseKVs f (skipWs r5)).map (fun p => ((k, v) :: p.1, p.2)) := by
  have hq : ¬('"' : Char) = rbrace := by decide
  simp [memberChars, parseKVs, parseJStringAux_escList, skipWs, h, hq]

theorem parseKVs_member_last (f : Nat) (k v rest r5 : List Char)
    (h : skipWs rest = rbrace :: r5) :
    parseKVs (f + 1) (memberChars k v rest) = some ([(k, v)], r5) := by
  have hq : ¬('"' : Char) = rbrace := by decide
  have hrb : ¬rbrace = ',' := by decide
  simp [memberChars, parseKVs, parseJStringAux_escList, skipWs, h, hq, hrb]

theorem skipWs_indent (k v r : List Char) :
    skipWs ('\n' :: ' ' :: ' ' :: memberChars k v r) = memberChars k v r := by
  simp [skipWs, memberChars]

theorem parseKVs_three (f : Nat) (x y z : List Char) :
    parseKVs (f + 1 + 1 + 1)
      (memberChars "access_token".data x
        (',' :: '\n' :: ' ' :: ' ' ::
          memberChars "refresh_token".data y
            (',' :: '\n' :: ' ' :: ' ' ::
              memberChars "expires_at".data z ('\n' :: [rbrace])))) =
      some ([("access_token".data, x), ("refresh_token".data, y),
             ("expires_at".data, z)], []) := by
  have hnbws : ¬(rbrace = ' ' ∨ rbrace = '\n' ∨ rbrace = '\t' ∨ rbrace = '\r') := by
    decide
  have h3 : parseKVs (f + 1)
      (memberChars "expires_at".data z ('\n' :: [rbrace])) =
      some ([("expires_at".data, z)], []) :=
    parseKVs_member_last f _ _ _ [] (by simp [skipWs, hnbws])
  have h2 := parseKVs_member_comma (f + 1) "refresh_token".data y
    (',' :: '\n' :: ' ' :: ' ' ::
      memberChars "expires_at".data z ('\n' :: [rbrace]))
    ('\n' :: ' ' :: ' ' :: memberChars "expires_at".data z ('\n' :: [rbrace]))
    (by simp [skipWs])
  rw [skipWs_indent, h3] at h2
  have h1 := parseKVs_member_comma (f + 1 + 1) "access_token".data x
    (',' :: '\n' :: ' ' :: ' ' ::
      memberChars "refresh_token".data y
        (',' :: '\n' :: ' ' :: ' ' ::
          memberChars "expires_at".data z ('\n' :: [rbrace])))
    ('\n' :: ' ' :: ' ' ::
      memberChars "refresh_token".data y
        (',' :: '\n' :: ' ' :: ' ' ::
          memberChars "expires_at".data z ('\n' :: [rbrace])))
    (by simp [skipWs])
  rw [skipWs_indent, h2] at h1
  rw [h1]
  rfl

theorem applyFields_members (x y : List Char) (e : Int) :
    applyFields ⟨"", "", 0⟩
      [("access_token".data, x), ("refresh_token".data, y),
       ("expires_at".data, intRepr e)] = some ⟨⟨x⟩, ⟨y⟩, e⟩ := by
  simp [applyFields, applyField, parseIntChars_intRepr]

theorem decodeStoredToken_lbrace (R : List Char) :
    decodeStoredToken (lbrace :: R) =
      match parseKVs ((lbrace :: R).length + 1) (skipWs R) with
      | none => none
      | some (kvs, r) =>
        if (skipWs r).isEmpty then applyFields ⟨"", "", 0⟩ kvs else none := by
  have hnlb : ¬(lbrace = ' ' ∨ lbrace = '\n' ∨ lbrace = '\t' ∨ lbrace = '\r') := by
    decide
  simp only [decodeStoredToken]
  rw [show skipWs (lbrace :: R) = lbrace :: R from by simp [skipWs, hnlb]]
  simp

theorem encodeStoredToken_chars (x y : String) (e : Int) :
    encodeStoredToken ⟨x, y, e⟩ =
      lbrace :: '\n' :: ' ' :: ' ' ::
        memberChars "access_token".data x.data
          (',' :: '\n' :: ' ' :: ' ' ::
            memberChars "refresh_token".data y.data
              (',' :: '\n' :: ' ' :: ' ' ::
                memberChars "expires_at".data (intRepr e)
                  ('\n' :: [rbrace]))) := by
  simp [encodeStoredToken, encodeMember, quoteChars, memberChars, List.append_assoc]

theorem decodeStoredToken_encodeStoredToken (t : StoredToken) :
    decodeStoredToken (encodeStoredToken t) = some t := by
  obtain ⟨x, y, e⟩ := t
  rw [encodeStoredToken_chars, decodeStoredToken_lbrace, skipWs_indent]
  have hf : ∃ f, (lbrace :: '\n' :: ' ' :: ' ' ::
      memberChars "access_token".data x.data
        (',' :: '\n' :: ' ' :: ' ' ::
          memberChars "refresh_token".data y.data
            (',' :: '\n' :: ' ' :: ' ' ::
              memberChars "expires_at".data (intRepr e)
                ('\n' :: [rbrace])))).length + 1 = f + 1 + 1 + 1 := by
    refine ⟨(lbrace :: '\n' :: ' ' :: ' ' ::
      memberChars "access_token".data x.data
        (',' :: '\n' :: ' ' :: ' ' ::
          memberChars "refresh_token".data y.data
            (',' :: '\n' :: ' ' :: ' ' ::
              memberChars "expires_at".data (intRepr e)
                ('\n' :: [rbrace])))).length - 2, ?_⟩
    simp [List.length_cons]
  obtain ⟨f, hf⟩ := hf
  rw [hf, parseKVs_three]
  show (if (skipWs ([] : List Char)).isEmpty = true then
      applyFields ⟨"", "", 0⟩
        [("access_token".data, x.data), ("refresh_token".data, y.data),
         ("expires_at".data, intRepr e)] else none) = some ⟨x, y, e⟩
  rw [if_pos (show (skipWs ([] : List Char)).isEmpty = true from rfl),
    applyFields_members]

/-- C9: persisting a `StoredToken` with `saveToken` and reading it back
with `loadToken` yields the original record, field for field:
`json.MarshalIndent` and `json.Unmarshal` (modelled character by
character, including Go's JSON string escaping) are mutually inverse on
this record type. -/
theorem loadToken_saveToken_roundtrip (t : StoredToken) :
    loadToken (some (saveToken t)) = some t := by
  simp only [loadToken, saveToken, Option.some_bind]
  exact decodeStoredToken_encodeStoredToken t

end Oura
